import Mathlib

/-!
Verification of the outbound-message batching and tagging layer
(`irc/responsebuffer.go` of lukaszlach/oragono).

The Go code is shallowly embedded: an `IrcMessage` becomes `Msg` (tags as an
association list), the `Session`/`Client` collaborators become records, and the
effects of the code (messages handed to `Session.SendRawMessage`, internal
errors reported via the logger, tokens drawn from `utils.GenerateSecretToken`)
are made explicit as fields of the buffer state `RBState`:
  - `sent` is the transcript of `SendRawMessage` calls, in order;
  - `errors` is the transcript of internal-error log lines;
  - `tokenGen`/`tokenCtr` model the external token source as a deterministic
    supply threaded through the state (`tokenGen tokenCtr` is the next token);
  - `Session.sendErr n` is the error value the transport returns for the n-th
    `SendRawMessage` call (counted from 0), modelling a fallible transport.
The `blocking` flag of the Go code only selects a transport mode and has no
effect on any state this layer owns, so it is not modelled.
-/

/-- Message model: the external `ircmsg.IrcMessage` value type, as far as this
code uses it — a tag mapping plus source, command and parameter list.  Tags are
an association list with unique keys, maintained by `setTag`. -/
structure Msg where
  tags : List (String × String)
  source : String
  command : String
  params : List String
deriving DecidableEq

namespace Msg

/-- Set (add or overwrite) a tag, keeping keys unique. -/
def setTag (m : Msg) (key value : String) : Msg :=
  { m with tags := m.tags.filter (fun p => !(p.1 == key)) ++ [(key, value)] }

/-- Look up a tag value. -/
def getTag (m : Msg) (key : String) : Option String :=
  (m.tags.find? (fun p => p.1 == key)).map Prod.snd

/-- Whether a tag is present. -/
def hasTag (m : Msg) (key : String) : Bool :=
  (m.getTag key).isSome

/-- Merge a collection of tags into the message (ircmsg `UpdateTags`). -/
def updateTags (m : Msg) (tags : List (String × String)) : Msg :=
  tags.foldl (fun acc p => acc.setTag p.1 p.2) m

end Msg

/-- Construct a message (ircmsg `MakeMessage`). -/
def makeMessage (tags : List (String × String)) (source command : String)
    (params : List String) : Msg :=
  { tags := tags, source := source, command := command, params := params }

/-- The label tag name, `caps.LabelTagName` of the labeled-response spec. -/
def labelTagName : String := "draft/label"

/-- Capability flags read by this code (`caps` package membership queries). -/
structure Capabilities where
  labeledResponse : Bool
  messageTags : Bool
  accountTag : Bool
  maxLine : Bool
  eventPlayback : Bool
  batch : Bool
  serverTime : Bool
deriving DecidableEq

/-- Server identity, as far as this code reads it (`server.name`). -/
structure Server where
  name : String
deriving DecidableEq

/-- Target client, as far as this code reads it. -/
structure Client where
  server : Server
  nick : String
deriving DecidableEq

/-- Session collaborator: capability set, its client, and the transport's
error behaviour (`sendErr n` is what `SendRawMessage` returns on the n-th
transmission). -/
structure Session where
  caps : Capabilities
  client : Client
  sendErr : Nat → Option String

/-- Modelled from the spec: `Session.setTimeTag` is not under `src/`; per the
spec it attaches a server-time tag, applying its own capability gating.  Time
is modelled as a natural number (`0` is the zero value `time.Time{}`). -/
def Session.setTimeTag (s : Session) (m : Msg) (t : Nat) : Msg :=
  if s.caps.serverTime then m.setTag "time" (toString t) else m

/-- Modelled from the spec: `utils.MessagePair` is not under `src/`; per the
spec a split fragment carries its own text, message-id and timestamp. -/
structure MessagePair where
  message : String
  msgid : String
  time : Nat
deriving DecidableEq

/-- Modelled from the spec: `utils.SplitMessage` is not under `src/`; it holds
the unsplit text with its message-id and timestamp, plus the list of fragments
when the message was actually split (`none` models a nil `Wrapped` slice). -/
structure SplitMessage where
  message : String
  msgid : String
  time : Nat
  wrapped : Option (List MessagePair)
deriving DecidableEq

/-- The `ResponseBuffer` state, together with the explicit effect transcripts
described in the module docstring. -/
structure RBState where
  Label : String
  batchID : String
  batchType : String
  nestedBatches : List String
  messages : List Msg
  finalized : Bool
  target : Client
  session : Session
  tokenGen : Nat → String
  tokenCtr : Nat
  sent : List Msg
  errors : List String

/-- The default batch type `draft/labeled-response`. -/
def defaultBatchType : String := "draft/labeled-response"

/-- `GetLabel` returns the label from the given message (empty if absent). -/
def GetLabel (msg : Msg) : String :=
  (msg.getTag labelTagName).getD ""

namespace RBState

/-- `NewResponseBuffer`, with fresh effect transcripts. -/
def NewResponseBuffer (session : Session) (label : String)
    (tokenGen : Nat → String) : RBState :=
  { Label := label, batchID := "", batchType := defaultBatchType,
    nestedBatches := [], messages := [], finalized := false,
    target := session.client, session := session,
    tokenGen := tokenGen, tokenCtr := 0, sent := [], errors := [] }

/-- One `SendRawMessage` call: record the message in the transcript and return
the transport's error for this call. -/
def sendRaw (rb : RBState) (msg : Msg) : RBState × Option String :=
  ({ rb with sent := rb.sent ++ [msg] }, rb.session.sendErr rb.sent.length)

/-- Draw the next token from the external token source
(`utils.GenerateSecretToken`). -/
def nextToken (rb : RBState) : RBState × String :=
  ({ rb with tokenCtr := rb.tokenCtr + 1 }, rb.tokenGen rb.tokenCtr)

/-- `AddMessage`. -/
def AddMessage (rb : RBState) (msg : Msg) : RBState :=
  if rb.finalized then
    { rb with errors := rb.errors ++
        ["message added to finalized ResponseBuffer, undefined behavior"] }
  else
    let msg := if 0 < rb.nestedBatches.length then
        msg.setTag "batch" (rb.nestedBatches.getLastD "")
      else msg
    { rb with messages := rb.messages ++ [msg] }

/-- `Add`. -/
def Add (rb : RBState) (tags : List (String × String)) (source command : String)
    (params : List String) : RBState :=
  rb.AddMessage (makeMessage tags source command params)

/-- The message `AddFromClient` constructs before enqueueing it. -/
def mkFromClient (s : Session) (time : Nat) (msgid fromNickMask fromAccount : String)
    (tags : List (String × String)) (command : String) (params : List String) : Msg :=
  let msg := makeMessage [] fromNickMask command params
  let msg := if s.caps.messageTags then msg.updateTags tags else msg
  let msg := if s.caps.accountTag && fromAccount != "*" then
      msg.setTag "account" fromAccount else msg
  let msg := if 0 < msgid.length && s.caps.messageTags then
      msg.setTag "msgid" msgid else msg
  s.setTimeTag msg time

/-- `AddFromClient`. -/
def AddFromClient (rb : RBState) (time : Nat) (msgid fromNickMask fromAccount : String)
    (tags : List (String × String)) (command : String) (params : List String) : RBState :=
  rb.AddMessage (mkFromClient rb.session time msgid fromNickMask fromAccount tags command params)

/-- `AddSplitMessageFromClient`.  Note the Go code passes `message.Time` — the
split message's overall timestamp — for every fragment. -/
def AddSplitMessageFromClient (rb : RBState) (fromNickMask fromAccount : String)
    (tags : List (String × String)) (command target : String)
    (message : SplitMessage) : RBState :=
  if rb.session.caps.maxLine || message.wrapped == none then
    rb.AddFromClient message.time message.msgid fromNickMask fromAccount tags
      command [target, message.message]
  else
    (message.wrapped.getD []).foldl
      (fun acc messagePair =>
        acc.AddFromClient message.time messagePair.msgid fromNickMask fromAccount tags
          command [target, messagePair.message])
      rb

/-- The batch-open framing message of `sendBatchStart`: `BATCH +<id> <type>`,
tagged with the request label if one is set. -/
def openMessage (rb : RBState) (tok : String) : Msg :=
  let message := makeMessage [] rb.target.server.name "BATCH" ["+" ++ tok, rb.batchType]
  if rb.Label != "" then message.setTag labelTagName rb.Label else message

/-- The batch-close framing message of `sendBatchEnd`: `BATCH -<id>`. -/
def closeMessage (rb : RBState) : Msg :=
  makeMessage [] rb.target.server.name "BATCH" ["-" ++ rb.batchID]

/-- `sendBatchStart`. -/
def sendBatchStart (rb : RBState) : RBState :=
  if rb.batchID != "" then rb
  else
    let (rb, tok) := rb.nextToken
    let rb := { rb with batchID := tok }
    (rb.sendRaw (rb.openMessage tok)).1

/-- `sendBatchEnd`. -/
def sendBatchEnd (rb : RBState) : RBState :=
  if rb.batchID == "" then rb
  else (rb.sendRaw rb.closeMessage).1

/-- `ForceBatchStart`. -/
def ForceBatchStart (rb : RBState) (batchType : String) : RBState :=
  ({ rb with batchType := batchType }).sendBatchStart

/-- `StartNestedBatch`. -/
def StartNestedBatch (rb : RBState) (batchType : String) (params : List String) :
    RBState × String :=
  let (rb, batchID) := rb.nextToken
  let msgParams := ("+" ++ batchID) :: batchType :: params
  let rb := rb.AddMessage (makeMessage [] rb.target.server.name "BATCH" msgParams)
  ({ rb with nestedBatches := rb.nestedBatches ++ [batchID] }, batchID)

/-- `EndNestedBatch`. -/
def EndNestedBatch (rb : RBState) (batchID : String) : RBState :=
  if batchID == "" then rb
  else if 0 == rb.nestedBatches.length || rb.nestedBatches.getLastD "" != batchID then
    { rb with errors := rb.errors ++ ["inconsistent batch nesting detected"] }
  else
    let rb := { rb with nestedBatches := rb.nestedBatches.dropLast }
    rb.AddMessage (makeMessage [] rb.target.server.name "BATCH" ["-" ++ batchID])

/-- `StartNestedHistoryBatch`. -/
def StartNestedHistoryBatch (rb : RBState) (params : List String) : RBState × String :=
  let batchType :=
    if rb.session.caps.eventPlayback then "history"
    else if rb.session.caps.batch then "chathistory"
    else ""
  if batchType != "" then rb.StartNestedBatch batchType params
  else (rb, "")

end RBState

/-- The per-message processing of the send loop of `flushInternal`: attach
server-time, then the batch tag `bid` unless a batch tag is present.  It only
reads the session and the top-level batch identifier. -/
def tagWith (s : Session) (bid : String) (message : Msg) : Msg :=
  let message := s.setTimeTag message 0
  if bid != "" && !message.hasTag "batch" then
    message.setTag "batch" bid
  else message

namespace RBState

/-- The send loop's processing, at the buffer's current session and batch
identifier. -/
def tagOut (rb : RBState) (message : Msg) : Msg :=
  tagWith rb.session rb.batchID message

/-- The send loop of `flushInternal`: process and transmit each message,
discarding the transport's per-call result as the Go code does. -/
def sendAll (rb : RBState) (msgs : List Msg) : RBState :=
  msgs.foldl (fun acc message => (acc.sendRaw (acc.tagOut message)).1) rb

/-- `flushInternal`.  The Go function discards every `SendRawMessage` result
and ends with `return nil`; the returned `Option String` reflects that. -/
def flushInternal (rb : RBState) (final : Bool) : RBState × Option String :=
  if rb.finalized then (rb, none)
  else
    let useLabel := rb.session.caps.labeledResponse && rb.Label != ""
    let startBatch := useLabel && (decide (1 < rb.messages.length) || !final)
    let rb :=
      if startBatch then rb.sendBatchStart
      else if useLabel && rb.messages.length == 0 && rb.batchID == "" && final then
        let message := makeMessage [] rb.session.client.server.name "ACK" []
        let message := message.setTag labelTagName rb.Label
        let message := rb.session.setTimeTag message 0
        (rb.sendRaw message).1
      else if useLabel && rb.messages.length == 1 && rb.batchID == "" && final then
        { rb with messages := rb.messages.map (fun m => m.setTag labelTagName rb.Label) }
      else rb
    let rb := rb.sendAll rb.messages
    let rb :=
      if final then
        let rb := rb.sendBatchEnd
        { rb with finalized := true }
      else rb
    ({ rb with messages := [] }, none)

/-- `Send`: terminal flush. -/
def Send (rb : RBState) : RBState × Option String :=
  rb.flushInternal true

/-- `Flush`: non-terminal flush. -/
def Flush (rb : RBState) : RBState × Option String :=
  rb.flushInternal false

/-- `Notice`. -/
def Notice (rb : RBState) (text : String) : RBState :=
  rb.Add [] rb.target.server.name "NOTICE" [rb.target.nick, text]

end RBState

/-! ### Tag-map lemmas -/

namespace Msg

theorem find?_key_filter_ne (l : List (String × String)) (k : String) :
    (l.filter fun p => !(p.1 == k)).find? (fun p => p.1 == k) = none := by
  induction l with
  | nil => rfl
  | cons a l ih =>
    rw [List.filter_cons]
    by_cases h : a.1 = k
    · rw [if_neg (by simp [h])]
      exact ih
    · rw [if_pos (by simp [h])]
      simp [List.find?_cons, h, ih]

theorem getTag_setTag_self (m : Msg) (k v : String) : (m.setTag k v).getTag k = some v := by
  simp [setTag, getTag, List.find?_append, find?_key_filter_ne, List.find?_cons]

theorem getTag_setTag_ne (m : Msg) (k v k' : String) (h : k' ≠ k) :
    (m.setTag k v).getTag k' = m.getTag k' := by
  unfold setTag getTag
  simp only [List.find?_append]
  have h1 : (m.tags.filter fun p => !(p.1 == k)).find? (fun p => p.1 == k') =
      m.tags.find? (fun p => p.1 == k') := by
    induction m.tags with
    | nil => rfl
    | cons a l ih =>
      by_cases ha : a.1 = k'
      · have hk : ¬ a.1 = k := by rw [ha]; exact h
        simp [List.filter_cons, List.find?_cons, ha, hk, h]
      · by_cases hb : a.1 = k <;>
          simp [List.filter_cons, List.find?_cons, ha, hb, ih, Ne.symm h]
  have h2 : ([(k, v)].find? fun p => p.1 == k') = none := by
    simp [List.find?_cons, Ne.symm h]
  rw [h1, h2]
  cases m.tags.find? (fun p => p.1 == k') <;> rfl

theorem hasTag_setTag_self (m : Msg) (k v : String) : (m.setTag k v).hasTag k = true := by
  simp [hasTag, getTag_setTag_self]

theorem hasTag_setTag_ne (m : Msg) (k v k' : String) (h : k' ≠ k) :
    (m.setTag k v).hasTag k' = m.hasTag k' := by
  simp [hasTag, getTag_setTag_ne m k v k' h]

theorem command_setTag (m : Msg) (k v : String) : (m.setTag k v).command = m.command := rfl

theorem params_setTag (m : Msg) (k v : String) : (m.setTag k v).params = m.params := rfl

theorem getTag_updateTags_of_not_mem (m : Msg) (tags : List (String × String))
    (k : String) (h : ∀ p ∈ tags, p.1 ≠ k) :
    (m.updateTags tags).getTag k = m.getTag k := by
  induction tags generalizing m with
  | nil => rfl
  | cons a l ih =>
    have ha : a.1 ≠ k := h a (by simp)
    have : (m.updateTags (a :: l)) = ((m.setTag a.1 a.2).updateTags l) := rfl
    rw [this, ih _ (fun p hp => h p (by simp [hp])),
      getTag_setTag_ne m a.1 a.2 k (Ne.symm ha)]

end Msg

namespace Session

theorem command_setTimeTag (s : Session) (m : Msg) (t : Nat) :
    (s.setTimeTag m t).command = m.command := by
  unfold setTimeTag; split <;> rfl

theorem params_setTimeTag (s : Session) (m : Msg) (t : Nat) :
    (s.setTimeTag m t).params = m.params := by
  unfold setTimeTag; split <;> rfl

theorem getTag_setTimeTag_ne (s : Session) (m : Msg) (t : Nat) (k : String)
    (h : k ≠ "time") : (s.setTimeTag m t).getTag k = m.getTag k := by
  unfold setTimeTag
  split
  · exact m.getTag_setTag_ne _ _ _ h
  · rfl

theorem hasTag_setTimeTag_ne (s : Session) (m : Msg) (t : Nat) (k : String)
    (h : k ≠ "time") : (s.setTimeTag m t).hasTag k = m.hasTag k := by
  simp [Msg.hasTag, getTag_setTimeTag_ne s m t k h]

end Session

namespace RBState

/-- The send loop changes nothing but the transcript: it appends the processed
image of each message, in order. -/
theorem sendAll_eq (rb : RBState) (msgs : List Msg) :
    rb.sendAll msgs =
      { rb with sent := rb.sent ++ msgs.map (tagWith rb.session rb.batchID) } := by
  induction msgs generalizing rb with
  | nil => simp [sendAll]
  | cons m ms ih =>
    have h1 : rb.sendAll (m :: ms) =
        ({ rb with sent := rb.sent ++ [rb.tagOut m] } : RBState).sendAll ms := rfl
    rw [h1, ih]
    simp [RBState.tagOut]

/-- A batch start against an already-opened batch leaves the state untouched. -/
theorem sendBatchStart_of_ne (rb : RBState) (h : rb.batchID ≠ "") :
    rb.sendBatchStart = rb := by
  unfold sendBatchStart
  simp [h]

/-- A batch start on a fresh buffer draws a token, records it as the batch
identifier and transmits the open framing message. -/
theorem sendBatchStart_of_empty (rb : RBState) (h : rb.batchID = "") :
    rb.sendBatchStart =
      { rb with
          batchID := rb.tokenGen rb.tokenCtr,
          tokenCtr := rb.tokenCtr + 1,
          sent := rb.sent ++ [rb.openMessage (rb.tokenGen rb.tokenCtr)] } := by
  unfold sendBatchStart
  rw [if_neg (by simp [h])]
  rfl

/-- A batch end with no open batch is a no-op. -/
theorem sendBatchEnd_of_empty (rb : RBState) (h : rb.batchID = "") :
    rb.sendBatchEnd = rb := by
  unfold sendBatchEnd
  simp [h]

/-- A batch end with an open batch transmits the close framing message. -/
theorem sendBatchEnd_of_ne (rb : RBState) (h : rb.batchID ≠ "") :
    rb.sendBatchEnd = { rb with sent := rb.sent ++ [rb.closeMessage] } := by
  unfold sendBatchEnd
  rw [if_neg (by simp [h])]
  rfl

/-- With no top-level batch open, the send loop only attaches server-time. -/
theorem tagWith_of_empty (s : Session) (m : Msg) :
    tagWith s "" m = s.setTimeTag m 0 := by
  unfold tagWith
  simp

/-- With a top-level batch open, a message without a batch tag gets one. -/
theorem tagWith_of_ne (s : Session) (bid : String) (h : bid ≠ "") (m : Msg)
    (hm : m.hasTag "batch" = false) :
    tagWith s bid m = (s.setTimeTag m 0).setTag "batch" bid := by
  unfold tagWith
  rw [if_pos]
  simp [h, s.hasTag_setTimeTag_ne m 0 "batch" (by decide), hm]

end RBState

/-! ### Concrete fixtures for the closed evaluation theorems -/

/-- A capability set with every flag off. -/
def exCaps0 : Capabilities := ⟨false, false, false, false, false, false, false⟩

/-- A concrete client. -/
def exClient : Client := ⟨⟨"irc.example.com"⟩, "nick"⟩

/-- A deterministic token supply. -/
def exGen : Nat → String := fun n => "tok" ++ toString n

/-- A transport that never fails. -/
def exNoErr : Nat → Option String := fun _ => none

/-- A session advertising only the request-correlation capability. -/
def exSessionLabeled : Session :=
  ⟨{ exCaps0 with labeledResponse := true }, exClient, exNoErr⟩

/-- A fresh labelled buffer. -/
def exRB : RBState := RBState.NewResponseBuffer exSessionLabeled "lbl" exGen

/-- A concrete client-sourced message. -/
def exMsg : Msg := makeMessage [] "alice!u@h" "PRIVMSG" ["#chan", "hi"]

/-- A second concrete client-sourced message. -/
def exMsg2 : Msg := makeMessage [] "bob!u@h" "PRIVMSG" ["#chan", "yo"]

/-- The labelled buffer after a terminal flush. -/
def exRBFinalized : RBState := { exRB with finalized := true }

/-- The labelled buffer with the top-level batch already opened. -/
def exRBOpened : RBState := { exRB with batchID := "b1" }

/-- The labelled buffer with one nested batch open. -/
def exRBNested : RBState := { exRB with nestedBatches := ["n1"] }

/-- A session whose transport fails every transmission. -/
def exSessionBoom : Session := ⟨exCaps0, exClient, fun _ => some "boom"⟩

/-- An unlabelled buffer holding one message, over the failing transport. -/
def exRBBoom : RBState :=
  { RBState.NewResponseBuffer exSessionBoom "" exGen with messages := [exMsg] }

/-! ### C2: transmission errors and the flush result -/

/-- C2 counterexample: on a buffer holding one message over a transport that
fails every transmission, `Send` performs one transmission whose transport
result is the error `boom`, yet returns `none` — the error is not surfaced to
the caller, contrary to the claim. -/
theorem flush_error_not_surfaced_cex :
    (exRBBoom.Send).1.sent.length = 1 ∧
    exRBBoom.session.sendErr 0 = some "boom" ∧
    (exRBBoom.Send).2 = none ∧
    (exRBBoom.Send).2 ≠ some "boom" := by
  refine ⟨rfl, rfl, rfl, ?_⟩
  decide

/-- C2 amended: every flush call returns `nil` unconditionally; the per-call
results of `SendRawMessage` are discarded by `flushInternal`. -/
theorem flushInternal_always_returns_none (rb : RBState) (final : Bool) :
    (rb.flushInternal final).2 = none := by
  unfold RBState.flushInternal
  split
  · rfl
  · rfl

/-! ### C3: idempotence of the top-level batch open -/

/-- C3: opening the top-level batch when the identifier is already set is a
complete no-op (state and transcript unchanged); from a fresh buffer, opening
sets the identifier and transmits exactly one open framing message, and a
second open is then a no-op — so the identifier transitions empty→non-empty at
most once and exactly one open framing is ever transmitted. -/
theorem sendBatchStart_idempotent_single_open (rb : RBState) :
    (rb.batchID ≠ "" → rb.sendBatchStart = rb) ∧
    (rb.batchID = "" →
      rb.sendBatchStart.sent = rb.sent ++ [rb.openMessage (rb.tokenGen rb.tokenCtr)] ∧
      rb.sendBatchStart.batchID = rb.tokenGen rb.tokenCtr) ∧
    (rb.tokenGen rb.tokenCtr ≠ "" →
      rb.sendBatchStart.sendBatchStart = rb.sendBatchStart) := by
  refine ⟨fun h => RBState.sendBatchStart_of_ne rb h, fun h => ?_, fun ht => ?_⟩
  · constructor
    · rw [RBState.sendBatchStart_of_empty rb h]
    · rw [RBState.sendBatchStart_of_empty rb h]
  · by_cases h : rb.batchID = ""
    · rw [RBState.sendBatchStart_of_empty rb h]
      exact RBState.sendBatchStart_of_ne _ ht
    · rw [RBState.sendBatchStart_of_ne rb h]
      exact RBState.sendBatchStart_of_ne rb h

/-- C3 witness: on the concrete opened buffer the open is a no-op, and on the
fresh buffer a second open after the first is a no-op. -/
theorem sendBatchStart_idempotent_single_open_witness :
    exRBOpened.sendBatchStart = exRBOpened ∧
    exRB.sendBatchStart.sendBatchStart = exRB.sendBatchStart :=
  ⟨(sendBatchStart_idempotent_single_open exRBOpened).1 (by decide),
   (sendBatchStart_idempotent_single_open exRB).2.2 (by decide)⟩

/-! ### C4: enqueueing into a finalized buffer -/

/-- C4: for every message and every finalized buffer, `AddMessage` reports an
internal error and changes nothing else: the whole state is as before except
for the appended error-log line, and the call returns normally (it is a total
function). -/
theorem addMessage_finalized_is_logged_noop (rb : RBState) (msg : Msg)
    (h : rb.finalized = true) :
    rb.AddMessage msg =
      { rb with
          errors := rb.errors ++
            ["message added to finalized ResponseBuffer, undefined behavior"] } := by
  unfold RBState.AddMessage
  rw [if_pos h]

/-- C4 witness: the concrete finalized buffer absorbs a message into the error
log only. -/
theorem addMessage_finalized_is_logged_noop_witness :
    exRBFinalized.finalized = true ∧
    exRBFinalized.AddMessage exMsg =
      { exRBFinalized with
          errors := exRBFinalized.errors ++
            ["message added to finalized ResponseBuffer, undefined behavior"] } :=
  ⟨rfl, addMessage_finalized_is_logged_noop exRBFinalized exMsg rfl⟩

/-! ### C5: mismatched nested-batch close -/

/-- C5: closing a nested batch with a non-empty identifier that is not the top
of the stack (in particular when the stack is empty) only appends an internal
error to the log — stack and message queue are untouched; closing with the
empty identifier is a silent no-op. -/
theorem endNestedBatch_mismatch_is_logged_noop (rb : RBState) (b : String) :
    (b ≠ "" → rb.nestedBatches = [] ∨ rb.nestedBatches.getLastD "" ≠ b →
      rb.EndNestedBatch b =
        { rb with errors := rb.errors ++ ["inconsistent batch nesting detected"] }) ∧
    rb.EndNestedBatch "" = rb := by
  constructor
  · intro hb hcase
    have hc : (0 == rb.nestedBatches.length || rb.nestedBatches.getLastD "" != b) = true := by
      rcases hcase with h | h
      · simp [h]
      · simp only [Bool.or_eq_true, beq_iff_eq, bne_iff_ne, ne_eq]
        exact Or.inr (by simpa [List.getLastD_eq_getLast?] using h)
    unfold RBState.EndNestedBatch
    rw [if_neg (by simp [hb]), if_pos hc]
  · unfold RBState.EndNestedBatch
    rw [if_pos (by decide)]

/-- C5 witness: on the concrete buffer with nested stack `[n1]`, closing `n2`
only logs, and closing the empty identifier does nothing. -/
theorem endNestedBatch_mismatch_is_logged_noop_witness :
    exRBNested.EndNestedBatch "n2" =
      { exRBNested with
          errors := exRBNested.errors ++ ["inconsistent batch nesting detected"] } ∧
    exRBNested.EndNestedBatch "" = exRBNested :=
  ⟨(endNestedBatch_mismatch_is_logged_noop exRBNested "n2").1 (by decide)
      (Or.inr (by decide)),
   (endNestedBatch_mismatch_is_logged_noop exRBNested "n2").2⟩

/-! ### More tag-preservation helpers -/

/-- A message built with no tags has no tags. -/
theorem hasTag_makeMessage_nil (k src cmd : String) (ps : List String) :
    (makeMessage [] src cmd ps).hasTag k = false := rfl

/-- Presence of an untouched key is preserved by `updateTags`. -/
theorem Msg.hasTag_updateTags_of_not_mem (m : Msg) (tags : List (String × String))
    (k : String) (h : ∀ p ∈ tags, p.1 ≠ k) :
    (m.updateTags tags).hasTag k = m.hasTag k := by
  simp [Msg.hasTag, m.getTag_updateTags_of_not_mem tags k h]

/-- The send-loop processing touches only the `time` and `batch` tags. -/
theorem hasTag_tagWith_ne (s : Session) (bid : String) (m : Msg) (k : String)
    (h1 : k ≠ "time") (h2 : k ≠ "batch") :
    (tagWith s bid m).hasTag k = m.hasTag k := by
  simp only [tagWith]
  split
  · rw [Msg.hasTag_setTag_ne _ _ _ _ h2, Session.hasTag_setTimeTag_ne _ _ _ _ h1]
  · rw [Session.hasTag_setTimeTag_ne _ _ _ _ h1]

/-- The close framing message carries no tags. -/
theorem hasTag_closeMessage (rb : RBState) (k : String) :
    rb.closeMessage.hasTag k = false := rfl

/-- With the request-correlation capability absent, a non-finalized flush
transmits exactly the processed queue, plus the close framing when terminal
with a batch open. -/
theorem RBState.flushInternal_sent_no_cap (rb : RBState) (final : Bool)
    (hcap : rb.session.caps.labeledResponse = false) (hfin : rb.finalized = false) :
    (rb.flushInternal final).1.sent = rb.sent ++
      rb.messages.map (tagWith rb.session rb.batchID) ++
      (if final = true ∧ rb.batchID ≠ "" then [rb.closeMessage] else []) := by
  unfold RBState.flushInternal
  rw [if_neg (by simp [hfin])]
  simp only [hcap, Bool.false_and, Bool.if_false_left]
  cases final with
  | false =>
    simp [RBState.sendAll_eq]
  | true =>
    by_cases hbid : rb.batchID = ""
    · simp [RBState.sendAll_eq, RBState.sendBatchEnd_of_empty, hbid]
    · have h1 : (({ rb with
          sent := rb.sent ++ rb.messages.map (tagWith rb.session rb.batchID) } :
            RBState)).batchID ≠ "" := hbid
      simp [RBState.sendAll_eq, RBState.sendBatchEnd_of_ne _ h1, hbid, RBState.closeMessage]

/-! ### C7: capability gating of the label tag -/

/-- A labelled buffer whose session does not advertise request-correlation. -/
def exRBForce : RBState :=
  RBState.NewResponseBuffer ⟨exCaps0, exClient, exNoErr⟩ "lbl" exGen

/-- C7 counterexample: with the request label set but the request-correlation
capability absent, `ForceBatchStart` transmits a batch-open framing message
that carries the label tag — so the label tag is not attached only when the
capability is present. -/
theorem label_attached_without_cap_cex :
    exRBForce.session.caps.labeledResponse = false ∧
    ((exRBForce.ForceBatchStart "chathistory").sent.map
      (fun m => m.hasTag labelTagName)) = [true] := by
  exact ⟨rfl, by decide⟩

/-- C7 amended: on the `Send`/`Flush` paths the label tag is indeed gated — a
session without the request-correlation capability never receives a
flush-transmitted message carrying the label tag (provided no queued message
already carried one) — but `sendBatchStart`, hence `ForceBatchStart`, attaches
the label tag to the batch-open framing whenever the label is non-empty,
regardless of the capability. -/
theorem label_gating_amended (rb : RBState) :
    (rb.session.caps.labeledResponse = false →
      (∀ m ∈ rb.messages, m.hasTag labelTagName = false) →
      ∀ final : Bool, ∀ m ∈ (rb.flushInternal final).1.sent.drop rb.sent.length,
        m.hasTag labelTagName = false) ∧
    (rb.batchID = "" → rb.Label ≠ "" →
      ∀ m ∈ rb.sendBatchStart.sent.drop rb.sent.length,
        m.hasTag labelTagName = true) := by
  constructor
  · intro hcap hq final m hm
    by_cases hfin : rb.finalized
    · unfold RBState.flushInternal at hm
      rw [if_pos hfin] at hm
      simp at hm
    · rw [RBState.flushInternal_sent_no_cap rb final hcap (by simpa using hfin)] at hm
      rw [List.append_assoc, List.drop_left] at hm
      rcases List.mem_append.1 hm with h | h
      · rcases List.mem_map.1 h with ⟨m0, hm0, rfl⟩
        rw [hasTag_tagWith_ne rb.session rb.batchID m0 labelTagName (by decide) (by decide)]
        exact hq m0 hm0
      · rcases (by split at h <;> simp_all : m = rb.closeMessage) with rfl
        exact hasTag_closeMessage rb labelTagName
  · intro hbid hlab m hm
    rw [RBState.sendBatchStart_of_empty rb hbid] at hm
    rw [List.drop_left] at hm
    rcases List.mem_singleton.1 hm with rfl
    unfold RBState.openMessage
    rw [if_pos (by simp [hlab])]
    exact Msg.hasTag_setTag_self _ _ _

/-- C7 witness: on the concrete label-without-capability buffer, the flush
paths transmit nothing labelled, while the open framing is labelled. -/
theorem label_gating_amended_witness :
    (∀ final : Bool, ∀ m ∈ (exRBForce.flushInternal final).1.sent.drop exRBForce.sent.length,
        m.hasTag labelTagName = false) ∧
    (∀ m ∈ exRBForce.sendBatchStart.sent.drop exRBForce.sent.length,
        m.hasTag labelTagName = true) :=
  ⟨(label_gating_amended exRBForce).1 rfl
      (fun m hm => absurd hm (by simp [exRBForce, RBState.NewResponseBuffer])),
   (label_gating_amended exRBForce).2 rfl (by decide)⟩

/-! ### C8: tag gating in AddFromClient -/

/-- The account tag of a message built by `AddFromClient` is present exactly
when the capability is advertised and the source account is not the logged-out
sentinel `*`. -/
theorem mkFromClient_hasTag_account (s : Session) (time : Nat)
    (msgid mask acct : String) (tags : List (String × String)) (cmd : String)
    (ps : List String) (hacct : ∀ p ∈ tags, p.1 ≠ "account") :
    (RBState.mkFromClient s time msgid mask acct tags cmd ps).hasTag "account" =
      (s.caps.accountTag && acct != "*") := by
  simp only [RBState.mkFromClient]
  cases hmt : s.caps.messageTags <;> cases hat : s.caps.accountTag <;>
    by_cases hstar : acct = "*" <;> by_cases hlen : 0 < msgid.length <;>
      simp [hmt, hat, hstar, hlen, Session.hasTag_setTimeTag_ne, Msg.hasTag_setTag_ne,
        Msg.hasTag_setTag_self,
        Msg.hasTag_updateTags_of_not_mem (makeMessage [] mask cmd ps) tags "account" hacct,
        hasTag_makeMessage_nil]

/-- The msgid tag of a message built by `AddFromClient` is present exactly
when the incoming message-id is non-empty and the capability is advertised. -/
theorem mkFromClient_hasTag_msgid (s : Session) (time : Nat)
    (msgid mask acct : String) (tags : List (String × String)) (cmd : String)
    (ps : List String) (hmsgid : ∀ p ∈ tags, p.1 ≠ "msgid") :
    (RBState.mkFromClient s time msgid mask acct tags cmd ps).hasTag "msgid" =
      (decide (0 < msgid.length) && s.caps.messageTags) := by
  simp only [RBState.mkFromClient]
  cases hmt : s.caps.messageTags <;> cases hat : s.caps.accountTag <;>
    by_cases hstar : acct = "*" <;> by_cases hlen : 0 < msgid.length <;>
      simp [hmt, hat, hstar, hlen, Session.hasTag_setTimeTag_ne, Msg.hasTag_setTag_ne,
        Msg.hasTag_setTag_self,
        Msg.hasTag_updateTags_of_not_mem (makeMessage [] mask cmd ps) tags "msgid" hmsgid,
        hasTag_makeMessage_nil]

/-- A session advertising account-tag and message-tags capabilities. -/
def exSession8 : Session :=
  ⟨{ exCaps0 with accountTag := true, messageTags := true }, exClient, exNoErr⟩

/-- A fresh unlabelled buffer over `exSession8`. -/
def exRB8 : RBState := RBState.NewResponseBuffer exSession8 "" exGen

/-- C8 counterexample: the session advertises the account-tag capability, yet
the message enqueued for a logged-out peer (`fromAccount = "*"`) carries no
account tag — so "attached iff the capability is advertised" fails. -/
theorem account_tag_iff_cap_cex :
    exRB8.session.caps.accountTag = true ∧
    ((exRB8.AddFromClient 3 "id1" "n!u@h" "*" [] "PRIVMSG" ["#c", "hi"]).messages.map
      (fun m => m.hasTag "account")) = [false] := by
  exact ⟨rfl, by decide⟩

/-- C8 amended: for every `AddFromClient` call on a non-finalized buffer whose
caller-supplied tags contain neither an `account` nor a `msgid` key, the
enqueued message carries the account tag iff the session advertises the
account-tag capability AND the source account is not `*`, and carries the
msgid tag iff the given message-id is non-empty AND the session advertises the
message-tags capability. -/
theorem addFromClient_tag_gating_amended (rb : RBState) (time : Nat)
    (msgid mask acct : String) (tags : List (String × String)) (cmd : String)
    (ps : List String) (hfin : rb.finalized = false)
    (hacct : ∀ p ∈ tags, p.1 ≠ "account") (hmsgid : ∀ p ∈ tags, p.1 ≠ "msgid") :
    ∃ m, (rb.AddFromClient time msgid mask acct tags cmd ps).messages =
        rb.messages ++ [m] ∧
      m.hasTag "account" = (rb.session.caps.accountTag && acct != "*") ∧
      m.hasTag "msgid" = (decide (0 < msgid.length) && rb.session.caps.messageTags) := by
  unfold RBState.AddFromClient RBState.AddMessage
  rw [if_neg (by simp [hfin])]
  by_cases hn : 0 < rb.nestedBatches.length
  · refine ⟨(RBState.mkFromClient rb.session time msgid mask acct tags cmd ps).setTag
        "batch" (rb.nestedBatches.getLastD ""), by simp [hn], ?_, ?_⟩
    · rw [Msg.hasTag_setTag_ne _ _ _ _ (by decide)]
      exact mkFromClient_hasTag_account rb.session time msgid mask acct tags cmd ps hacct
    · rw [Msg.hasTag_setTag_ne _ _ _ _ (by decide)]
      exact mkFromClient_hasTag_msgid rb.session time msgid mask acct tags cmd ps hmsgid
  · refine ⟨RBState.mkFromClient rb.session time msgid mask acct tags cmd ps,
        by simp [hn], ?_, ?_⟩
    · exact mkFromClient_hasTag_account rb.session time msgid mask acct tags cmd ps hacct
    · exact mkFromClient_hasTag_msgid rb.session time msgid mask acct tags cmd ps hmsgid

/-- C8 amended witness: evaluation on the concrete buffer, once with a real
account and message-id (both tags present) — the hypotheses hold since the
caller passes no tags. -/
theorem addFromClient_tag_gating_amended_witness :
    ∃ m, (exRB8.AddFromClient 3 "id1" "n!u@h" "acct" [] "PRIVMSG" ["#c", "hi"]).messages =
        exRB8.messages ++ [m] ∧
      m.hasTag "account" = (exRB8.session.caps.accountTag && "acct" != "*") ∧
      m.hasTag "msgid" = (decide (0 < "id1".length) && exRB8.session.caps.messageTags) :=
  addFromClient_tag_gating_amended exRB8 3 "id1" "n!u@h" "acct" [] "PRIVMSG" ["#c", "hi"]
    rfl (by simp) (by simp)

/-! ### C9: fragment enqueueing in AddSplitMessageFromClient -/

/-- Enqueueing on a non-finalized buffer with no nested batch open appends the
message as constructed. -/
theorem RBState.addMessage_plain (rb : RBState) (msg : Msg)
    (hfin : rb.finalized = false) (hnest : rb.nestedBatches = []) :
    rb.AddMessage msg = { rb with messages := rb.messages ++ [msg] } := by
  unfold RBState.AddMessage
  rw [if_neg (by simp [hfin])]
  simp [hnest]

/-- The msgid tag value of a message built by `AddFromClient`. -/
theorem mkFromClient_getTag_msgid (s : Session) (time : Nat)
    (msgid mask acct : String) (tags : List (String × String)) (cmd : String)
    (ps : List String) (hlen : 0 < msgid.length) (hmt : s.caps.messageTags = true) :
    (RBState.mkFromClient s time msgid mask acct tags cmd ps).getTag "msgid" =
      some msgid := by
  simp only [RBState.mkFromClient]
  simp [hlen, hmt, Session.getTag_setTimeTag_ne, Msg.getTag_setTag_self]

/-- The server-time tag value of a message built by `AddFromClient`. -/
theorem mkFromClient_getTag_time (s : Session) (time : Nat)
    (msgid mask acct : String) (tags : List (String × String)) (cmd : String)
    (ps : List String) (hst : s.caps.serverTime = true) :
    (RBState.mkFromClient s time msgid mask acct tags cmd ps).getTag "time" =
      some (toString time) := by
  simp only [RBState.mkFromClient, Session.setTimeTag]
  simp [hst, Msg.getTag_setTag_self]

/-- Folding `AddFromClient` over fragments appends one constructed message per
fragment, in order. -/
theorem foldl_addFromClient_eq (rb : RBState) (ps : List MessagePair) (t : Nat)
    (mask acct : String) (tags : List (String × String)) (cmd tgt : String)
    (hfin : rb.finalized = false) (hnest : rb.nestedBatches = []) :
    ps.foldl (fun acc p => acc.AddFromClient t p.msgid mask acct tags cmd
        [tgt, p.message]) rb =
      { rb with messages := rb.messages ++ ps.map (fun p =>
          RBState.mkFromClient rb.session t p.msgid mask acct tags cmd
            [tgt, p.message]) } := by
  induction ps generalizing rb with
  | nil => simp
  | cons p ps ih =>
    rw [List.foldl_cons]
    have h1 : rb.AddFromClient t p.msgid mask acct tags cmd [tgt, p.message] =
        { rb with messages := rb.messages ++
            [RBState.mkFromClient rb.session t p.msgid mask acct tags cmd
              [tgt, p.message]] } := by
      unfold RBState.AddFromClient
      exact rb.addMessage_plain _ hfin hnest
    rw [h1, ih ({ rb with messages := rb.messages ++
        [RBState.mkFromClient rb.session t p.msgid mask acct tags cmd
          [tgt, p.message]] }) hfin hnest]
    simp

/-- C9 amended: if the session supports long lines or the input was not split,
exactly one message is enqueued via `AddFromClient` with the split message's
message-id and timestamp; otherwise one message per fragment is enqueued, each
carrying that fragment's own message-id but the split message's overall
timestamp (the code passes `message.Time` for every fragment). -/
theorem addSplitMessageFromClient_amended (rb : RBState) (mask acct : String)
    (tags : List (String × String)) (cmd tgt : String) (sm : SplitMessage)
    (hfin : rb.finalized = false) (hnest : rb.nestedBatches = []) :
    ((rb.session.caps.maxLine = true ∨ sm.wrapped = none) →
      rb.AddSplitMessageFromClient mask acct tags cmd tgt sm =
        { rb with messages := rb.messages ++
            [RBState.mkFromClient rb.session sm.time sm.msgid mask acct tags cmd
              [tgt, sm.message]] }) ∧
    (∀ ps, rb.session.caps.maxLine = false → sm.wrapped = some ps →
      (rb.AddSplitMessageFromClient mask acct tags cmd tgt sm =
        { rb with messages := rb.messages ++ ps.map (fun p =>
            RBState.mkFromClient rb.session sm.time p.msgid mask acct tags cmd
              [tgt, p.message]) }) ∧
      (∀ p ∈ ps, 0 < p.msgid.length → rb.session.caps.messageTags = true →
        (RBState.mkFromClient rb.session sm.time p.msgid mask acct tags cmd
          [tgt, p.message]).getTag "msgid" = some p.msgid) ∧
      (∀ p ∈ ps, rb.session.caps.serverTime = true →
        (RBState.mkFromClient rb.session sm.time p.msgid mask acct tags cmd
          [tgt, p.message]).getTag "time" = some (toString sm.time))) := by
  constructor
  · intro hcase
    unfold RBState.AddSplitMessageFromClient
    rw [if_pos (by rcases hcase with h | h <;> simp [h])]
    unfold RBState.AddFromClient
    exact rb.addMessage_plain _ hfin hnest
  · intro ps hml hw
    refine ⟨?_, ?_, ?_⟩
    · unfold RBState.AddSplitMessageFromClient
      rw [if_neg (by simp [hml, hw])]
      rw [hw]
      exact foldl_addFromClient_eq rb ps sm.time mask acct tags cmd tgt hfin hnest
    · intro p _ hlen hmt
      exact mkFromClient_getTag_msgid rb.session sm.time p.msgid mask acct tags cmd
        [tgt, p.message] hlen hmt
    · intro p _ hst
      exact mkFromClient_getTag_time rb.session sm.time p.msgid mask acct tags cmd
        [tgt, p.message] hst

/-- A session advertising message-tags and server-time capabilities. -/
def exSession9 : Session :=
  ⟨{ exCaps0 with messageTags := true, serverTime := true }, exClient, exNoErr⟩

/-- A fresh unlabelled buffer over `exSession9`. -/
def exRB9 : RBState := RBState.NewResponseBuffer exSession9 "" exGen

/-- A split message whose single fragment has its own timestamp 5, distinct
from the overall timestamp 3. -/
def exSplit : SplitMessage := ⟨"full text", "outer", 3, some [⟨"frag", "f1", 5⟩]⟩

/-- C9 counterexample: the fragment's own timestamp is 5, yet the enqueued
message's server-time tag records the split message's overall timestamp 3 —
the fragment's own timestamp is not preserved. -/
theorem split_fragment_time_cex :
    exSplit.wrapped = some [⟨"frag", "f1", 5⟩] ∧
    ((exRB9.AddSplitMessageFromClient "n!u@h" "*" [] "PRIVMSG" "#c" exSplit).messages.map
      (fun m => m.getTag "time")) = [some (toString exSplit.time)] ∧
    ((exRB9.AddSplitMessageFromClient "n!u@h" "*" [] "PRIVMSG" "#c" exSplit).messages.map
      (fun m => m.getTag "time")) ≠ [some (toString (5 : Nat))] := by
  refine ⟨rfl, by decide, by decide⟩

/-- C9 amended witness: on the concrete buffer and split message, exactly the
fragment's constructed message is enqueued. -/
theorem addSplitMessageFromClient_amended_witness :
    exRB9.AddSplitMessageFromClient "n!u@h" "*" [] "PRIVMSG" "#c" exSplit =
      { exRB9 with messages := exRB9.messages ++
          ([⟨"frag", "f1", 5⟩] : List MessagePair).map (fun p =>
            RBState.mkFromClient exRB9.session exSplit.time p.msgid "n!u@h" "*" []
              "PRIVMSG" ["#c", p.message]) } :=
  ((addSplitMessageFromClient_amended exRB9 "n!u@h" "*" [] "PRIVMSG" "#c" exSplit
    rfl rfl).2 [⟨"frag", "f1", 5⟩] rfl rfl).1

/-! ### C10: tagging of the nested batch-open message -/

/-- The general effect of `AddMessage` on a non-finalized buffer. -/
theorem RBState.addMessage_not_finalized (rb : RBState) (msg : Msg)
    (hfin : rb.finalized = false) :
    rb.AddMessage msg = { rb with messages := rb.messages ++
      [if 0 < rb.nestedBatches.length then
          msg.setTag "batch" (rb.nestedBatches.getLastD "")
        else msg] } := by
  unfold RBState.AddMessage
  rw [if_neg (by simp [hfin])]

/-- C10: the batch-open framing message enqueued by `StartNestedBatch` is
tagged with the identifier that was on top of the stack before the call (the
enclosing nested batch), never with the freshly drawn identifier it announces
(the fresh identifier is pushed only after the message is enqueued); with an
empty stack the open framing carries no batch tag at enqueue time. -/
theorem startNestedBatch_open_tagged_with_enclosing (rb : RBState) (bt : String)
    (ps : List String) (hfin : rb.finalized = false) :
    ((rb.StartNestedBatch bt ps).1.nestedBatches =
      rb.nestedBatches ++ [rb.tokenGen rb.tokenCtr]) ∧
    ((rb.StartNestedBatch bt ps).2 = rb.tokenGen rb.tokenCtr) ∧
    (rb.nestedBatches ≠ [] →
      ∃ m, (rb.StartNestedBatch bt ps).1.messages = rb.messages ++ [m] ∧
        m.getTag "batch" = some (rb.nestedBatches.getLastD "") ∧
        (rb.nestedBatches.getLastD "" ≠ rb.tokenGen rb.tokenCtr →
          m.getTag "batch" ≠ some (rb.tokenGen rb.tokenCtr))) ∧
    (rb.nestedBatches = [] →
      ∃ m, (rb.StartNestedBatch bt ps).1.messages = rb.messages ++ [m] ∧
        m.hasTag "batch" = false) := by
  have key : rb.StartNestedBatch bt ps =
      (let rb2 := ({ rb with tokenCtr := rb.tokenCtr + 1 } : RBState).AddMessage
          (makeMessage [] rb.target.server.name "BATCH"
            (("+" ++ rb.tokenGen rb.tokenCtr) :: bt :: ps));
        ({ rb2 with nestedBatches := rb2.nestedBatches ++ [rb.tokenGen rb.tokenCtr] },
          rb.tokenGen rb.tokenCtr)) := rfl
  rw [key, RBState.addMessage_not_finalized ({ rb with tokenCtr := rb.tokenCtr + 1 })
    (makeMessage [] rb.target.server.name "BATCH"
      (("+" ++ rb.tokenGen rb.tokenCtr) :: bt :: ps)) hfin]
  by_cases hn : rb.nestedBatches = []
  · refine ⟨by simp [hn], rfl, fun h => absurd hn h, fun _ => ?_⟩
    refine ⟨makeMessage [] rb.target.server.name "BATCH"
        (("+" ++ rb.tokenGen rb.tokenCtr) :: bt :: ps), ?_, ?_⟩
    · simp [hn]
    · exact hasTag_makeMessage_nil _ _ _ _
  · have hlen : 0 < rb.nestedBatches.length := by
      cases h : rb.nestedBatches with
      | nil => exact absurd h hn
      | cons a l => simp [h]
    refine ⟨by simp, rfl, fun _ => ?_, fun h => absurd h hn⟩
    refine ⟨(makeMessage [] rb.target.server.name "BATCH"
        (("+" ++ rb.tokenGen rb.tokenCtr) :: bt :: ps)).setTag "batch"
          (rb.nestedBatches.getLastD ""), ?_, ?_, ?_⟩
    · simp [hlen]
    · exact Msg.getTag_setTag_self _ _ _
    · intro hne hcontra
      rw [Msg.getTag_setTag_self _ _ _] at hcontra
      exact hne (Option.some.inj hcontra)

/-- C10 witness: on the concrete buffer with nested stack `[n1]`, the enqueued
open framing is tagged with `n1`, not with the fresh identifier `tok0`. -/
theorem startNestedBatch_open_tagged_with_enclosing_witness :
    ((exRBNested.StartNestedBatch "chathistory" ["#c"]).1.nestedBatches =
      exRBNested.nestedBatches ++ [exRBNested.tokenGen exRBNested.tokenCtr]) ∧
    (exRBNested.nestedBatches ≠ [] →
      ∃ m, (exRBNested.StartNestedBatch "chathistory" ["#c"]).1.messages =
          exRBNested.messages ++ [m] ∧
        m.getTag "batch" = some (exRBNested.nestedBatches.getLastD "") ∧
        (exRBNested.nestedBatches.getLastD "" ≠
            exRBNested.tokenGen exRBNested.tokenCtr →
          m.getTag "batch" ≠ some (exRBNested.tokenGen exRBNested.tokenCtr))) :=
  ⟨(startNestedBatch_open_tagged_with_enclosing exRBNested "chathistory" ["#c"] rfl).1,
   (startNestedBatch_open_tagged_with_enclosing exRBNested "chathistory" ["#c"] rfl).2.2.1⟩

/-! ### Flush scenario lemmas (for the label-degradation law) -/

/-- Terminal flush, label in use, empty queue, no batch open: a single labelled
ACK is transmitted. -/
theorem RBState.flush_final_ack (rb : RBState)
    (hfin : rb.finalized = false) (hcap : rb.session.caps.labeledResponse = true)
    (hlab : rb.Label ≠ "") (hbid : rb.batchID = "") (hmsgs : rb.messages = []) :
    (rb.flushInternal true).1 =
      { rb with
          sent := rb.sent ++ [rb.session.setTimeTag
            ((makeMessage [] rb.session.client.server.name "ACK" []).setTag
              labelTagName rb.Label) 0],
          finalized := true,
          messages := [] } := by
  simp [RBState.flushInternal, hfin, hcap, hlab, hbid, hmsgs,
    RBState.sendAll_eq, RBState.sendRaw, RBState.sendBatchEnd, tagWith]

/-- Terminal flush, label in use, exactly one queued message, no batch open:
that message is transmitted with the label tag and no framing is produced. -/
theorem RBState.flush_final_single (rb : RBState) (m : Msg)
    (hfin : rb.finalized = false) (hcap : rb.session.caps.labeledResponse = true)
    (hlab : rb.Label ≠ "") (hbid : rb.batchID = "") (hmsgs : rb.messages = [m]) :
    (rb.flushInternal true).1 =
      { rb with
          sent := rb.sent ++ [rb.session.setTimeTag (m.setTag labelTagName rb.Label) 0],
          finalized := true,
          messages := [] } := by
  simp [RBState.flushInternal, hfin, hcap, hlab, hbid, hmsgs,
    RBState.sendAll_eq, RBState.sendRaw, RBState.sendBatchEnd, tagWith]

/-- Terminal flush, label in use, two or more queued messages, no batch open:
the open framing, the batch-tagged queue and the close framing are
transmitted, in that order. -/
theorem RBState.flush_final_many (rb : RBState)
    (hfin : rb.finalized = false) (hcap : rb.session.caps.labeledResponse = true)
    (hlab : rb.Label ≠ "") (hbid : rb.batchID = "")
    (hlen : 1 < rb.messages.length) (htok : rb.tokenGen rb.tokenCtr ≠ "")
    (hq : ∀ m ∈ rb.messages, m.hasTag "batch" = false) :
    (rb.flushInternal true).1 =
      { rb with
          batchID := rb.tokenGen rb.tokenCtr,
          tokenCtr := rb.tokenCtr + 1,
          sent := rb.sent ++ [rb.openMessage (rb.tokenGen rb.tokenCtr)] ++
            rb.messages.map (fun m =>
              (rb.session.setTimeTag m 0).setTag "batch" (rb.tokenGen rb.tokenCtr)) ++
            [makeMessage [] rb.target.server.name "BATCH"
              ["-" ++ rb.tokenGen rb.tokenCtr]],
          finalized := true,
          messages := [] } := by
  have hmap : rb.messages.map (tagWith rb.session (rb.tokenGen rb.tokenCtr)) =
      rb.messages.map (fun m =>
        (rb.session.setTimeTag m 0).setTag "batch" (rb.tokenGen rb.tokenCtr)) := by
    apply List.map_congr_left
    intro m hm
    exact RBState.tagWith_of_ne rb.session _ htok m (hq m hm)
  simp [RBState.flushInternal, hfin, hcap, hlab, hlen,
    RBState.sendBatchStart_of_empty rb hbid, RBState.sendAll_eq, hmap,
    RBState.sendRaw, RBState.sendBatchEnd, RBState.closeMessage, htok]

/-! ### C1: the label-degradation law -/

/-- With a non-empty label, the open framing is the labelled `BATCH +` message. -/
theorem RBState.openMessage_of_label (rb : RBState) (tok : String)
    (hlab : rb.Label ≠ "") :
    rb.openMessage tok =
      (makeMessage [] rb.target.server.name "BATCH"
        ["+" ++ tok, rb.batchType]).setTag labelTagName rb.Label := by
  unfold RBState.openMessage
  rw [if_pos (by simp [hlab])]

/-- C1: label-degradation law for a terminal flush with the label in use and no
top-level batch open.  With an empty queue exactly one labelled ACK is
transmitted; with exactly one queued message, that message alone is
transmitted carrying the label tag and no batch framing is produced; with two
or more queued messages (none carrying a batch or label tag already), the open
framing, the queue tagged with the fresh batch identifier, and the close
framing are transmitted, with the label tag only on the open framing and on no
queued message. -/
theorem send_label_degradation (rb : RBState)
    (hfin : rb.finalized = false) (hcap : rb.session.caps.labeledResponse = true)
    (hlab : rb.Label ≠ "") (hbid : rb.batchID = "") :
    (rb.messages = [] →
      ∃ a, (rb.Send).1.sent = rb.sent ++ [a] ∧ a.command = "ACK" ∧
        a.getTag labelTagName = some rb.Label) ∧
    (∀ m, rb.messages = [m] →
      ∃ m2, (rb.Send).1.sent = rb.sent ++ [m2] ∧
        m2.getTag labelTagName = some rb.Label ∧ m2.command = m.command ∧
        m2.params = m.params ∧ (rb.Send).1.batchID = "") ∧
    (1 < rb.messages.length → rb.tokenGen rb.tokenCtr ≠ "" →
      (∀ m ∈ rb.messages, m.hasTag "batch" = false ∧ m.hasTag labelTagName = false) →
      ∃ opn, (rb.Send).1.sent = rb.sent ++ [opn] ++
          rb.messages.map (fun m =>
            (rb.session.setTimeTag m 0).setTag "batch" (rb.tokenGen rb.tokenCtr)) ++
          [makeMessage [] rb.target.server.name "BATCH"
            ["-" ++ rb.tokenGen rb.tokenCtr]] ∧
        opn.command = "BATCH" ∧
        opn.params = ["+" ++ rb.tokenGen rb.tokenCtr, rb.batchType] ∧
        opn.getTag labelTagName = some rb.Label ∧
        (∀ m ∈ rb.messages,
          ((rb.session.setTimeTag m 0).setTag "batch"
            (rb.tokenGen rb.tokenCtr)).getTag "batch" =
              some (rb.tokenGen rb.tokenCtr) ∧
          ((rb.session.setTimeTag m 0).setTag "batch"
            (rb.tokenGen rb.tokenCtr)).hasTag labelTagName = false)) := by
  refine ⟨?_, ?_, ?_⟩
  · intro hmsgs
    refine ⟨rb.session.setTimeTag
      ((makeMessage [] rb.session.client.server.name "ACK" []).setTag
        labelTagName rb.Label) 0, ?_, ?_, ?_⟩
    · rw [RBState.Send, RBState.flush_final_ack rb hfin hcap hlab hbid hmsgs]
    · rw [Session.command_setTimeTag]
      rfl
    · rw [Session.getTag_setTimeTag_ne _ _ _ _ (by decide),
        Msg.getTag_setTag_self]
  · intro m hmsgs
    refine ⟨rb.session.setTimeTag (m.setTag labelTagName rb.Label) 0, ?_, ?_, ?_, ?_, ?_⟩
    · rw [RBState.Send, RBState.flush_final_single rb m hfin hcap hlab hbid hmsgs]
    · rw [Session.getTag_setTimeTag_ne _ _ _ _ (by decide),
        Msg.getTag_setTag_self]
    · rw [Session.command_setTimeTag, Msg.command_setTag]
    · rw [Session.params_setTimeTag, Msg.params_setTag]
    · rw [RBState.Send, RBState.flush_final_single rb m hfin hcap hlab hbid hmsgs]
      exact hbid
  · intro hlen htok hq
    refine ⟨rb.openMessage (rb.tokenGen rb.tokenCtr), ?_, ?_, ?_, ?_, ?_⟩
    · rw [RBState.Send, RBState.flush_final_many rb hfin hcap hlab hbid hlen htok
        (fun m hm => (hq m hm).1)]
    · rw [rb.openMessage_of_label _ hlab, Msg.command_setTag]
      rfl
    · rw [rb.openMessage_of_label _ hlab, Msg.params_setTag]
      rfl
    · rw [rb.openMessage_of_label _ hlab, Msg.getTag_setTag_self]
    · intro m hm
      refine ⟨Msg.getTag_setTag_self _ _ _, ?_⟩
      rw [Msg.hasTag_setTag_ne _ _ _ _ (by decide),
        Session.hasTag_setTimeTag_ne _ _ _ _ (by decide)]
      exact (hq m hm).2

/-- A labelled buffer holding two queued messages. -/
def exRBMany : RBState := { exRB with messages := [exMsg, exMsg2] }

/-- C1 witness: evaluation of the two-message case on a concrete buffer. -/
theorem send_label_degradation_witness :
    ∃ opn, (exRBMany.Send).1.sent = exRBMany.sent ++ [opn] ++
        exRBMany.messages.map (fun m =>
          (exRBMany.session.setTimeTag m 0).setTag "batch"
            (exRBMany.tokenGen exRBMany.tokenCtr)) ++
        [makeMessage [] exRBMany.target.server.name "BATCH"
          ["-" ++ exRBMany.tokenGen exRBMany.tokenCtr]] ∧
      opn.command = "BATCH" ∧
      opn.params = ["+" ++ exRBMany.tokenGen exRBMany.tokenCtr, exRBMany.batchType] ∧
      opn.getTag labelTagName = some exRBMany.Label ∧
      (∀ m ∈ exRBMany.messages,
        ((exRBMany.session.setTimeTag m 0).setTag "batch"
          (exRBMany.tokenGen exRBMany.tokenCtr)).getTag "batch" =
            some (exRBMany.tokenGen exRBMany.tokenCtr) ∧
        ((exRBMany.session.setTimeTag m 0).setTag "batch"
          (exRBMany.tokenGen exRBMany.tokenCtr)).hasTag labelTagName = false) :=
  (send_label_degradation exRBMany rfl rfl (by decide) rfl).2.2
    (by decide) (by decide) (by decide)

/-! ### C6: non-terminal flush and the later close -/

/-- Terminal flush with the top-level batch already open: the processed queue
is transmitted followed by the close framing, and the buffer is finalized. -/
theorem RBState.flush_final_with_open (rb : RBState)
    (hbid : rb.batchID ≠ "") (hfin : rb.finalized = false) :
    (rb.flushInternal true).1 =
      { rb with
          sent := rb.sent ++ rb.messages.map (tagWith rb.session rb.batchID) ++
            [rb.closeMessage],
          finalized := true,
          messages := [] } := by
  simp [RBState.flushInternal, hfin, hbid, RBState.sendBatchStart_of_ne rb hbid,
    RBState.sendAll_eq, RBState.sendRaw, RBState.sendBatchEnd, RBState.closeMessage]

/-- Non-terminal flush with the label in use and no batch open yet: the batch
is opened and the queue transmitted inside it; nothing is closed or
finalized. -/
theorem RBState.flush_nonfinal_label_empty (rb : RBState)
    (hfin : rb.finalized = false)
    (hUL : (rb.session.caps.labeledResponse && rb.Label != "") = true)
    (hbid : rb.batchID = "") :
    (rb.flushInternal false).1 =
      { rb with
          batchID := rb.tokenGen rb.tokenCtr,
          tokenCtr := rb.tokenCtr + 1,
          sent := rb.sent ++ [rb.openMessage (rb.tokenGen rb.tokenCtr)] ++
            rb.messages.map (tagWith rb.session (rb.tokenGen rb.tokenCtr)),
          messages := [] } := by
  simp [RBState.flushInternal, hfin, hUL, RBState.sendBatchStart_of_empty rb hbid,
    RBState.sendAll_eq]

/-- Non-terminal flush with the label in use and the batch already open: the
queue is transmitted inside the existing batch. -/
theorem RBState.flush_nonfinal_label_open (rb : RBState)
    (hfin : rb.finalized = false)
    (hUL : (rb.session.caps.labeledResponse && rb.Label != "") = true)
    (hbid : rb.batchID ≠ "") :
    (rb.flushInternal false).1 =
      { rb with
          sent := rb.sent ++ rb.messages.map (tagWith rb.session rb.batchID),
          messages := [] } := by
  simp [RBState.flushInternal, hfin, hUL, RBState.sendBatchStart_of_ne rb hbid,
    RBState.sendAll_eq]

/-- Non-terminal flush with no label in use: the queue is transmitted with no
framing produced. -/
theorem RBState.flush_nonfinal_nolabel (rb : RBState)
    (hfin : rb.finalized = false)
    (hUL : (rb.session.caps.labeledResponse && rb.Label != "") = false) :
    (rb.flushInternal false).1 =
      { rb with
          sent := rb.sent ++ rb.messages.map (tagWith rb.session rb.batchID),
          messages := [] } := by
  simp [RBState.flushInternal, hfin, hUL, RBState.sendAll_eq]

/-- C6: a non-terminal flush never sets the finalized flag, and its new
transmissions are only (possibly) one batch-open framing followed by the
processed queue — never a batch-close; if a top-level batch is open after the
Flush (in particular if it was opened during it), a subsequent Send transmits
the batch-close framing for that same identifier as its last message. -/
theorem flush_nonterminal_then_send (rb : RBState) (hfin : rb.finalized = false) :
    ((rb.Flush).1.finalized = false) ∧
    (∃ opens, (rb.Flush).1.sent = rb.sent ++ opens ++
        rb.messages.map (tagWith rb.session (rb.Flush).1.batchID) ∧
      (∀ x ∈ opens, x.command = "BATCH" ∧
        x.params.getD 0 "" = "+" ++ (rb.Flush).1.batchID)) ∧
    ((rb.Flush).1.batchID ≠ "" →
      ∃ body, (((rb.Flush).1).Send).1.sent = (rb.Flush).1.sent ++ body ++
        [makeMessage [] rb.target.server.name "BATCH"
          ["-" ++ (rb.Flush).1.batchID]]) := by
  by_cases hUL : (rb.session.caps.labeledResponse && rb.Label != "") = true
  · by_cases hbid : rb.batchID = ""
    · rw [RBState.Flush, RBState.flush_nonfinal_label_empty rb hfin hUL hbid]
      have hlab : rb.Label ≠ "" := by
        intro h
        simp [h] at hUL
      refine ⟨hfin, ⟨[rb.openMessage (rb.tokenGen rb.tokenCtr)], by simp, ?_⟩, ?_⟩
      · intro x hx
        rcases List.mem_singleton.1 hx with rfl
        rw [rb.openMessage_of_label _ hlab]
        exact ⟨rfl, rfl⟩
      · intro hne
        rw [RBState.Send, RBState.flush_final_with_open _ hne hfin]
        exact ⟨[], by simp [RBState.closeMessage]⟩
    · rw [RBState.Flush, RBState.flush_nonfinal_label_open rb hfin hUL hbid]
      refine ⟨hfin, ⟨[], by simp, by simp⟩, ?_⟩
      intro hne
      rw [RBState.Send, RBState.flush_final_with_open _ hne hfin]
      exact ⟨[], by simp [RBState.closeMessage]⟩
  · rw [RBState.Flush,
      RBState.flush_nonfinal_nolabel rb hfin (by simpa using hUL)]
    refine ⟨hfin, ⟨[], by simp, by simp⟩, ?_⟩
    intro hne
    rw [RBState.Send, RBState.flush_final_with_open _ hne hfin]
    exact ⟨[], by simp [RBState.closeMessage]⟩

/-- C6 witness: on the concrete two-message labelled buffer, Flush does not
finalize, and the Send after it closes the batch Flush opened. -/
theorem flush_nonterminal_then_send_witness :
    ((exRBMany.Flush).1.finalized = false) ∧
    (∃ body, (((exRBMany.Flush).1).Send).1.sent = (exRBMany.Flush).1.sent ++ body ++
      [makeMessage [] exRBMany.target.server.name "BATCH"
        ["-" ++ (exRBMany.Flush).1.batchID]]) :=
  ⟨(flush_nonterminal_then_send exRBMany rfl).1,
   (flush_nonterminal_then_send exRBMany rfl).2.2 (by decide)⟩
